import Mathlib

/-!
Verification of the assembler-interpreter engine of `src/main.cpp`.

The embedding mirrors the `Interpreter` class: instruction kinds, the
operand classifiers `isConst` / `isRegister`, the operand resolver
`resolveValue`, the message formatter `createMessage`, and the
`execute` dispatch loop with its explicit call stack of frames.

Modelling decisions (each is noted again at the definition it concerns):
* C++ `int` registers are modelled as unbounded `Int`; signed overflow is
  undefined behaviour in C++, so the unbounded model agrees with the
  source on every run that does not overflow.
* C++ `std::unordered_map<std::string,int>` with `operator[]` is modelled
  as a total function `String → Int` defaulting to 0, which is exactly the
  observable behaviour of value-initialised `int` entries.
* Division by zero is undefined behaviour in the C++ source (the `DIV`
  case has no zero test); the embedding totalises that branch with the
  distinguished error `divisionByZeroUB`.
* Fatal `throw`s of strings are modelled as an `Except` error type whose
  constructors are named after the thrown message texts.
* The potentially non-terminating `while` loop of `execute` is modelled
  with explicit fuel; `Except.ok none` means the fuel ran out.
-/

namespace AsmInterp

/-- Instruction kinds, mirroring `enum InstructionType` of the source. -/
inductive InstructionType where
  | NONE | MOV | INC | DEC | ADD | SUB | MUL | DIV
  | JMP | CMP | JNE | JE | JGE | JG | JLE | JL
  | CALL | RET | MSG | END
  deriving DecidableEq, Repr

/-- One parsed instruction: a kind plus its string-form operands,
mirroring `struct instruction`. -/
structure instruction where
  type : InstructionType
  args : List String
  deriving DecidableEq, Repr

/-- One frame of the call stack of `Interpreter::execute`, mirroring
`struct callFrame`: an instruction sequence and a cursor into it. -/
structure callFrame where
  instructions : List instruction
  instructionPointer : Nat
  deriving DecidableEq, Repr

/-- The mutable interpreter state: the fields of class `Interpreter`
(registers, comparison flag, message pattern, output) together with the
call stack that is local to `Interpreter::execute`.  Registers are a total
function defaulting to 0, the observable behaviour of
`std::unordered_map<std::string,int>::operator[]`. -/
structure ExecState where
  regs : String → Int
  cmpResult : Int
  messagePattern : List String
  output : String
  call_stack : List callFrame

/-- The fatal errors the source throws (as strings); constructor names
follow the thrown message texts.  `msgArgOutOfRange` models the
`std::out_of_range` raised by `a.at(0)` on an empty message operand, and
`divisionByZeroUB` totalises the C++ undefined behaviour of signed
division by zero (the source has no zero test). -/
inductive InterpError where
  | invalidNumberOfArgs (n : Nat)
  | firstArgShouldBeARegister (a : String)
  | invalidArg (a : String)
  | canNotFindSubroutine (name : String)
  | invalidMsgArgument (a : String)
  | msgArgOutOfRange (a : String)
  | divisionByZeroUB
  deriving DecidableEq, Repr

/-- `Interpreter::isConst`: does the string represent a valid integer
constant?  Faithful to the source: empty is rejected, `"0"` and `"-0"`
are accepted, `"-"` is rejected, the first character must be `-` or
`1`-`9`, and every later character must be a digit. -/
def isConst (s : String) : Bool :=
  match s.data with
  | [] => false
  | c :: rest =>
    if s = "0" || s = "-0" then true
    else if s = "-" then false
    else if c ≠ '-' && (c < '1' || c > '9') then false
    else rest.all fun d => '0' ≤ d && d ≤ '9'

/-- `Interpreter::isRegister`: every character must be a lowercase letter.
Faithful to the source loop, which accepts the empty string (the
function's own comment claims regex `[a-z]+`, which would not). -/
def isRegister (s : String) : Bool :=
  s.data.all fun c => 'a' ≤ c && c ≤ 'z'

/-- Value of a digit string, as accumulated by `std::stoi`. -/
def digitsToNat (cs : List Char) : Nat :=
  cs.foldl (fun acc c => acc * 10 + (c.toNat - '0'.toNat)) 0

/-- `std::stoi` on the strings accepted by `isConst`: an optional leading
minus followed by digits.  (C++ `int` overflow is not modelled; see the
file header.) -/
def stoi (s : String) : Int :=
  match s.data with
  | '-' :: rest => -(digitsToNat rest : Int)
  | cs => (digitsToNat cs : Int)

/-- The `resolveValue` lambda of `Interpreter::execute`: a register name
reads the register (default 0), else a constant parses, else fatal. -/
def resolveValue (regs : String → Int) (arg : String) : Except InterpError Int :=
  if isRegister arg then .ok (regs arg)
  else if isConst arg then .ok (stoi arg)
  else .error (.invalidArg arg)

/-- Pointwise update of the register store; the observable effect of
`this->regs[r] = v`. -/
def setReg (regs : String → Int) (r : String) (v : Int) : String → Int :=
  fun x => if x = r then v else regs x

/-- The `replaceTopFrame` lambda of `Interpreter::execute`: pop the top
frame, push the given instruction sequence as a fresh frame. -/
def replaceTopFrame (call_stack : List callFrame) (frame : List instruction) :
    List callFrame :=
  ⟨frame, 0⟩ :: call_stack.tail

/-- The `findSubroutine` lambda of `Interpreter::execute`: look the label
up in the subroutine table, fatal when absent. -/
def findSubroutine (subs : String → Option (List instruction)) (name : String) :
    Except InterpError (List instruction) :=
  match subs name with
  | some body => .ok body
  | none => .error (.canNotFindSubroutine name)

/-- One operand of `Interpreter::createMessage`: an operand starting with
a quote contributes `substr(1, length-2)` (first and last characters
removed), else a register name contributes its decimal value, else fatal.
`a.at(0)` on an empty operand raises `std::out_of_range`. -/
def createMessageArg (regs : String → Int) (a : String) : Except InterpError String :=
  match a.data with
  | [] => .error (.msgArgOutOfRange a)
  | c :: _ =>
    if c = '\'' then .ok (String.mk ((a.data.drop 1).dropLast))
    else if isRegister a then .ok (toString (regs a))
    else .error (.invalidMsgArgument a)

/-- The loop body of `Interpreter::createMessage`: concatenate the
operands' texts in order, failing at the first bad operand. -/
def createMessageLoop (regs : String → Int) : List String → Except InterpError String
  | [] => .ok ""
  | a :: rest =>
    match createMessageArg regs a with
    | .error e => .error e
    | .ok piece =>
      match createMessageLoop regs rest with
      | .error e => .error e
      | .ok restStr => .ok (piece ++ restStr)

/-- `Interpreter::createMessage`: an empty pattern yields the default
`"-1"`, otherwise the operands' texts are concatenated in order. -/
def createMessage (regs : String → Int) (pattern : List String) :
    Except InterpError String :=
  if pattern = [] then .ok "-1"
  else createMessageLoop regs pattern

/-- A conditional-jump case of the `switch` in `Interpreter::execute`:
one label operand required; when the flag condition holds the top frame
is replaced by the label's body (label looked up only then), otherwise
fall through. -/
def condJump (subs : String → Option (List instruction)) (instr : instruction)
    (s : ExecState) (cond : Int → Bool) : Except InterpError ExecState :=
  match instr.args with
  | [l] =>
    if cond s.cmpResult then
      match findSubroutine subs l with
      | .error e => .error e
      | .ok body => .ok { s with call_stack := replaceTopFrame s.call_stack body }
    else .ok s
  | _ => .error (.invalidNumberOfArgs instr.args.length)

/-- The `switch (instr.type)` of `Interpreter::execute`, acting on the
state in which the instruction pointer has already been advanced past
`instr` (the source's `instructionPointer++`). -/
def executeInstruction (subs : String → Option (List instruction))
    (instr : instruction) (s : ExecState) : Except InterpError ExecState :=
  match instr.type with
  | .NONE => .ok s
  | .MOV =>
    match instr.args with
    | [r, x] =>
      if isRegister r then
        match resolveValue s.regs x with
        | .error e => .error e
        | .ok v => .ok { s with regs := setReg s.regs r v }
      else .error (.firstArgShouldBeARegister r)
    | _ => .error (.invalidNumberOfArgs instr.args.length)
  | .INC =>
    match instr.args with
    | [r] =>
      if isRegister r then .ok { s with regs := setReg s.regs r (s.regs r + 1) }
      else .error (.firstArgShouldBeARegister r)
    | _ => .error (.invalidNumberOfArgs instr.args.length)
  | .DEC =>
    match instr.args with
    | [r] =>
      if isRegister r then .ok { s with regs := setReg s.regs r (s.regs r - 1) }
      else .error (.firstArgShouldBeARegister r)
    | _ => .error (.invalidNumberOfArgs instr.args.length)
  | .ADD =>
    match instr.args with
    | [r, x] =>
      if isRegister r then
        match resolveValue s.regs x with
        | .error e => .error e
        | .ok v => .ok { s with regs := setReg s.regs r (s.regs r + v) }
      else .error (.firstArgShouldBeARegister r)
    | _ => .error (.invalidNumberOfArgs instr.args.length)
  | .SUB =>
    match instr.args with
    | [r, x] =>
      if isRegister r then
        match resolveValue s.regs x with
        | .error e => .error e
        | .ok v => .ok { s with regs := setReg s.regs r (s.regs r - v) }
      else .error (.firstArgShouldBeARegister r)
    | _ => .error (.invalidNumberOfArgs instr.args.length)
  | .MUL =>
    match instr.args with
    | [r, x] =>
      if isRegister r then
        match resolveValue s.regs x with
        | .error e => .error e
        | .ok v => .ok { s with regs := setReg s.regs r (s.regs r * v) }
      else .error (.firstArgShouldBeARegister r)
    | _ => .error (.invalidNumberOfArgs instr.args.length)
  | .DIV =>
    match instr.args with
    | [r, x] =>
      if isRegister r then
        match resolveValue s.regs x with
        | .error e => .error e
        | .ok v =>
          if v = 0 then .error .divisionByZeroUB
          else .ok { s with regs := setReg s.regs r (Int.tdiv (s.regs r) v) }
      else .error (.firstArgShouldBeARegister r)
    | _ => .error (.invalidNumberOfArgs instr.args.length)
  | .JMP =>
    match instr.args with
    | [l] =>
      match findSubroutine subs l with
      | .error e => .error e
      | .ok body => .ok { s with call_stack := replaceTopFrame s.call_stack body }
    | _ => .error (.invalidNumberOfArgs instr.args.length)
  | .CMP =>
    match instr.args with
    | [x, y] =>
      match resolveValue s.regs x with
      | .error e => .error e
      | .ok vx =>
        match resolveValue s.regs y with
        | .error e => .error e
        | .ok vy => .ok { s with cmpResult := vx - vy }
    | _ => .error (.invalidNumberOfArgs instr.args.length)
  | .JNE => condJump subs instr s fun r => decide (r ≠ 0)
  | .JE => condJump subs instr s fun r => decide (r = 0)
  | .JGE => condJump subs instr s fun r => decide (r ≥ 0)
  | .JG => condJump subs instr s fun r => decide (r > 0)
  | .JLE => condJump subs instr s fun r => decide (r ≤ 0)
  | .JL => condJump subs instr s fun r => decide (r < 0)
  | .CALL =>
    match instr.args with
    | [l] =>
      match findSubroutine subs l with
      | .error e => .error e
      | .ok body => .ok { s with call_stack := ⟨body, 0⟩ :: s.call_stack }
    | _ => .error (.invalidNumberOfArgs instr.args.length)
  | .MSG => .ok { s with messagePattern := instr.args }
  | .RET => .ok { s with call_stack := s.call_stack.tail }
  | .END =>
    match createMessage s.regs s.messagePattern with
    | .error e => .error e
    | .ok out => .ok { s with output := out, call_stack := [] }

/-- One iteration of the `while` loop of `Interpreter::execute`: an
exhausted top frame is popped; otherwise the current instruction is
fetched, the instruction pointer advanced, and the instruction executed.
(On an empty stack the loop would not run; that case is inert here.) -/
def executeStep (subs : String → Option (List instruction)) (s : ExecState) :
    Except InterpError ExecState :=
  match s.call_stack with
  | [] => .ok s
  | frame :: rest =>
    match frame.instructions[frame.instructionPointer]? with
    | none => .ok { s with call_stack := rest }
    | some instr =>
      executeInstruction subs instr
        { s with call_stack := ⟨frame.instructions, frame.instructionPointer + 1⟩ :: rest }

/-- The `while (!call_stack.empty())` loop of `Interpreter::execute`,
with explicit fuel.  `.ok none` means the fuel ran out (the source can
loop forever); `.ok (some s)` is normal termination. -/
def executeLoop (subs : String → Option (List instruction)) :
    Nat → ExecState → Except InterpError (Option ExecState)
  | 0, _ => .ok none
  | fuel + 1, s =>
    match s.call_stack with
    | [] => .ok (some s)
    | _ :: _ =>
      match executeStep subs s with
      | .error e => .error e
      | .ok s' => executeLoop subs fuel s'

/-- The state after `Interpreter::initVariables` and the initial
`call_stack.push(this->instructions)` of `execute`: default registers,
flag 0, empty pattern, output `"-1"`, the main instruction sequence as
the only frame. -/
def initState (instrs : List instruction) : ExecState :=
  { regs := fun _ => 0
    cmpResult := 0
    messagePattern := []
    output := "-1"
    call_stack := [⟨instrs, 0⟩] }

/-- Whole-program execution from the initial state. -/
def execute (subs : String → Option (List instruction))
    (instrs : List instruction) (fuel : Nat) :
    Except InterpError (Option ExecState) :=
  executeLoop subs fuel (initState instrs)

/-- `Interpreter::getOutput` after a run: the final output string, when
the run terminated within the given fuel. -/
def runOutput (subs : String → Option (List instruction))
    (instrs : List instruction) (fuel : Nat) :
    Except InterpError (Option String) :=
  (execute subs instrs fuel).map (Option.map ExecState.output)

/-- The empty subroutine table. -/
def subs0 : String → Option (List instruction) := fun _ => none

/-- A one-instruction main program consisting of a single `ret`. -/
def retProg : List instruction := [⟨.RET, []⟩]

/-- A one-instruction main program that divides register `a` by the
constant 0. -/
def divProg : List instruction := [⟨.DIV, ["a", "0"]⟩]

/-- A one-instruction main program that increments register `a` and then
runs off the end of the instruction stream without `end`. -/
def demoProg : List instruction := [⟨.INC, ["a"]⟩]

/-- The final state of running `demoProg`: register `a` holds 1, the
output is still the default, the call stack is empty. -/
def demoFinal : ExecState :=
  { regs := setReg (fun _ => 0) "a" 1
    cmpResult := 0
    messagePattern := []
    output := "-1"
    call_stack := [] }

/-- C5: the register-name check.  `isRegister` accepts the lowercase
names the spec lists as valid and rejects `"A"` and `"r1"`, but —
contradicting both the claim and the function's own comment (regex
`[a-z]+`, one or more characters) — it also accepts the empty string:
its character loop is vacuously true on `""`. -/
theorem isRegister_accepts_empty_string :
    isRegister "" = true ∧ isRegister "a" = true ∧ isRegister "reg" = true ∧
    isRegister "A" = false ∧ isRegister "r1" = false :=
  ⟨rfl, rfl, rfl, rfl, rfl⟩

/-- C6: the integer-literal check.  `isConst` agrees with the claimed
grammar on `"0"`, `"-0"`, `"123"`, `"-7"`, `"007"`, `"-"`, `"1a"` and
`""`, but — contradicting both the claim and the function's own comment
(regex `-?(0|[1-9][0-9]*)`, no other leading zeros) — it accepts
`"-07"`: after a leading `-` the digit loop starts at index 1 and never
re-checks for a leading zero. -/
theorem isConst_accepts_minus_leading_zero :
    isConst "-07" = true ∧
    isConst "0" = true ∧ isConst "-0" = true ∧ isConst "123" = true ∧
    isConst "-7" = true ∧
    isConst "007" = false ∧ isConst "-" = false ∧ isConst "1a" = false ∧
    isConst "" = false :=
  ⟨rfl, rfl, rfl, rfl, rfl, rfl, rfl, rfl, rfl⟩

/-- C8: executing `div a, 0` reaches signed division with divisor 0.  In
the C++ source this point has no zero test and integer division by zero
is undefined behaviour (typically a SIGFPE crash), not a reported
`DivisionByZero` error; the embedding totalises that branch as the
distinguished marker `divisionByZeroUB`, which this run returns. -/
theorem div_by_zero_reaches_undefined_behaviour :
    executeLoop subs0 3 (initState divProg) = .error .divisionByZeroUB := rfl

/-- C4 counterexample: a main program consisting of a single `ret` — a
`ret` with no pending unmatched `call` — terminates NORMALLY with the
default output `"-1"`.  The source's `RET` case merely pops the current
frame (`call_stack.pop()`); no `EmptyCallStackOnReturn` error exists in
the code, so the run does not abort as the claim states. -/
theorem ret_at_top_level_terminates_normally :
    runOutput subs0 retProg 3 = .ok (some "-1") := rfl

/-- C4 amended: when `ret` executes in the bottom (only remaining) frame,
that frame is popped and the run terminates normally with its current
state untouched apart from the now-empty call stack; no error is
raised. -/
theorem ret_on_last_frame_ends_run_normally
    (subs : String → Option (List instruction)) (s : ExecState)
    (frame : callFrame) (args : List String) (fuel : Nat)
    (hstack : s.call_stack = [frame])
    (hinstr : frame.instructions[frame.instructionPointer]? =
      some ⟨.RET, args⟩) :
    executeLoop subs (fuel + 2) s = .ok (some { s with call_stack := [] }) := by
  have hstep : executeStep subs s = .ok { s with call_stack := [] } := by
    simp [executeStep, hstack, hinstr, executeInstruction]
  simp [executeLoop, hstack, hstep]

/-- Witness for the amended C4: the single-`ret` program concretely. -/
theorem ret_on_last_frame_ends_run_normally_witness :
    (initState retProg).call_stack = [⟨retProg, 0⟩] ∧
    executeLoop subs0 3 (initState retProg) =
      .ok (some { initState retProg with call_stack := [] }) :=
  ⟨rfl, ret_on_last_frame_ends_run_normally subs0 (initState retProg)
    ⟨retProg, 0⟩ [] 1 rfl rfl⟩

/-- C1: `cmp x, y` sets the comparison flag to exactly
resolved(x) − resolved(y), and each conditional jump whose label is
present in the subroutine table transfers control into the label's body
(replacing the top frame) exactly when its flag condition holds —
≠0 / =0 / ≥0 / >0 / ≤0 / <0 for `jne/je/jge/jg/jle/jl` — and otherwise
falls through to the next instruction. -/
theorem cmp_flag_and_conditional_jumps
    (subs : String → Option (List instruction)) (s : ExecState)
    (frame : callFrame) (rest : List callFrame)
    (hstack : s.call_stack = frame :: rest) :
    (∀ x y vx vy,
      frame.instructions[frame.instructionPointer]? = some ⟨.CMP, [x, y]⟩ →
      resolveValue s.regs x = .ok vx →
      resolveValue s.regs y = .ok vy →
      executeStep subs s = .ok { s with
        cmpResult := vx - vy
        call_stack := ⟨frame.instructions, frame.instructionPointer + 1⟩ :: rest })
    ∧ (∀ l body,
      frame.instructions[frame.instructionPointer]? = some ⟨.JNE, [l]⟩ →
      subs l = some body →
      executeStep subs s = .ok (if s.cmpResult ≠ 0
        then { s with call_stack := ⟨body, 0⟩ :: rest }
        else { s with call_stack :=
          ⟨frame.instructions, frame.instructionPointer + 1⟩ :: rest }))
    ∧ (∀ l body,
      frame.instructions[frame.instructionPointer]? = some ⟨.JE, [l]⟩ →
      subs l = some body →
      executeStep subs s = .ok (if s.cmpResult = 0
        then { s with call_stack := ⟨body, 0⟩ :: rest }
        else { s with call_stack :=
          ⟨frame.instructions, frame.instructionPointer + 1⟩ :: rest }))
    ∧ (∀ l body,
      frame.instructions[frame.instructionPointer]? = some ⟨.JGE, [l]⟩ →
      subs l = some body →
      executeStep subs s = .ok (if s.cmpResult ≥ 0
        then { s with call_stack := ⟨body, 0⟩ :: rest }
        else { s with call_stack :=
          ⟨frame.instructions, frame.instructionPointer + 1⟩ :: rest }))
    ∧ (∀ l body,
      frame.instructions[frame.instructionPointer]? = some ⟨.JG, [l]⟩ →
      subs l = some body →
      executeStep subs s = .ok (if s.cmpResult > 0
        then { s with call_stack := ⟨body, 0⟩ :: rest }
        else { s with call_stack :=
          ⟨frame.instructions, frame.instructionPointer + 1⟩ :: rest }))
    ∧ (∀ l body,
      frame.instructions[frame.instructionPointer]? = some ⟨.JLE, [l]⟩ →
      subs l = some body →
      executeStep subs s = .ok (if s.cmpResult ≤ 0
        then { s with call_stack := ⟨body, 0⟩ :: rest }
        else { s with call_stack :=
          ⟨frame.instructions, frame.instructionPointer + 1⟩ :: rest }))
    ∧ (∀ l body,
      frame.instructions[frame.instructionPointer]? = some ⟨.JL, [l]⟩ →
      subs l = some body →
      executeStep subs s = .ok (if s.cmpResult < 0
        then { s with call_stack := ⟨body, 0⟩ :: rest }
        else { s with call_stack :=
          ⟨frame.instructions, frame.instructionPointer + 1⟩ :: rest })) := by
  refine ⟨?_, ?_, ?_, ?_, ?_, ?_, ?_⟩
  · intro x y vx vy hinstr hx hy
    simp [executeStep, hstack, hinstr, executeInstruction, hx, hy]
  all_goals intro l body hinstr hsub
  · by_cases hc : s.cmpResult = 0 <;>
      simp [executeStep, hstack, hinstr, executeInstruction, condJump,
        findSubroutine, hsub, replaceTopFrame, hc]
  · by_cases hc : s.cmpResult = 0 <;>
      simp [executeStep, hstack, hinstr, executeInstruction, condJump,
        findSubroutine, hsub, replaceTopFrame, hc]
  · by_cases hc : s.cmpResult ≥ 0 <;>
      simp [executeStep, hstack, hinstr, executeInstruction, condJump,
        findSubroutine, hsub, replaceTopFrame, hc]
  · by_cases hc : s.cmpResult > 0 <;>
      simp [executeStep, hstack, hinstr, executeInstruction, condJump,
        findSubroutine, hsub, replaceTopFrame, hc]
  · by_cases hc : s.cmpResult ≤ 0 <;>
      simp [executeStep, hstack, hinstr, executeInstruction, condJump,
        findSubroutine, hsub, replaceTopFrame, hc]
  · by_cases hc : s.cmpResult < 0 <;>
      simp [executeStep, hstack, hinstr, executeInstruction, condJump,
        findSubroutine, hsub, replaceTopFrame, hc]

/-- C2: `call L` (with L present in the table) pushes a frame for L's
body on top of the current frame, whose saved instruction pointer now
points at the instruction immediately after the `call`; `ret` pops
exactly the top frame, leaving the frames below untouched (strict LIFO);
and the composite `call L` where L's body is a single `ret` resumes at
the instruction immediately after the `call`. -/
theorem call_pushes_continuation_and_ret_pops_lifo
    (subs : String → Option (List instruction)) (s : ExecState)
    (frame : callFrame) (rest : List callFrame)
    (hstack : s.call_stack = frame :: rest) :
    (∀ l body,
      frame.instructions[frame.instructionPointer]? = some ⟨.CALL, [l]⟩ →
      subs l = some body →
      executeStep subs s = .ok { s with call_stack := ⟨body, 0⟩ ::
        ⟨frame.instructions, frame.instructionPointer + 1⟩ :: rest })
    ∧ (∀ args,
      frame.instructions[frame.instructionPointer]? = some ⟨.RET, args⟩ →
      executeStep subs s = .ok { s with call_stack := rest })
    ∧ (∀ l,
      frame.instructions[frame.instructionPointer]? = some ⟨.CALL, [l]⟩ →
      subs l = some [⟨.RET, []⟩] →
      (executeStep subs s).bind (executeStep subs) = .ok { s with call_stack :=
        ⟨frame.instructions, frame.instructionPointer + 1⟩ :: rest }) := by
  refine ⟨?_, ?_, ?_⟩
  · intro l body hinstr hsub
    simp [executeStep, hstack, hinstr, executeInstruction, findSubroutine, hsub]
  · intro args hinstr
    simp [executeStep, hstack, hinstr, executeInstruction]
  · intro l hinstr hsub
    simp [executeStep, hstack, hinstr, executeInstruction, findSubroutine, hsub,
      Except.bind]

/-- C9: when the top frame's instruction pointer has run off the end of
its instruction sequence, the frame is popped and execution continues in
the frame below, exactly at that frame's saved position (an implicit
return); when the popped frame was the only one, the loop's stack is
empty and the whole run ends normally. -/
theorem exhausted_frame_pops_and_run_ends
    (subs : String → Option (List instruction)) (s : ExecState)
    (frame : callFrame)
    (hip : frame.instructions[frame.instructionPointer]? = none) :
    (∀ rest, s.call_stack = frame :: rest →
      executeStep subs s = .ok { s with call_stack := rest })
    ∧ (∀ fuel, s.call_stack = [frame] →
      executeLoop subs (fuel + 2) s = .ok (some { s with call_stack := [] })) := by
  constructor
  · intro rest hstack
    simp [executeStep, hstack, hip]
  · intro fuel hstack
    have hstep : executeStep subs s = .ok { s with call_stack := [] } := by
      simp [executeStep, hstack, hip]
    simp [executeLoop, hstack, hstep]

/-- C10: a taken jump — `jmp L`, or any conditional jump whose flag
condition holds — replaces the current top frame with a fresh frame for
L's body, so the replaced frame (with the instructions following the
jump) is gone from the stack; and when the jumped-to body is exhausted,
control pops to the frame below the replaced frame, not to the
instructions after the jump. -/
theorem taken_jump_replaces_top_frame
    (subs : String → Option (List instruction)) (s : ExecState)
    (frame : callFrame) (rest : List callFrame) (l : String)
    (body : List instruction)
    (hstack : s.call_stack = frame :: rest) (hsub : subs l = some body) :
    (frame.instructions[frame.instructionPointer]? = some ⟨.JMP, [l]⟩ →
      executeStep subs s = .ok { s with call_stack := ⟨body, 0⟩ :: rest })
    ∧ (frame.instructions[frame.instructionPointer]? = some ⟨.JNE, [l]⟩ →
      s.cmpResult ≠ 0 →
      executeStep subs s = .ok { s with call_stack := ⟨body, 0⟩ :: rest })
    ∧ (frame.instructions[frame.instructionPointer]? = some ⟨.JE, [l]⟩ →
      s.cmpResult = 0 →
      executeStep subs s = .ok { s with call_stack := ⟨body, 0⟩ :: rest })
    ∧ (frame.instructions[frame.instructionPointer]? = some ⟨.JGE, [l]⟩ →
      s.cmpResult ≥ 0 →
      executeStep subs s = .ok { s with call_stack := ⟨body, 0⟩ :: rest })
    ∧ (frame.instructions[frame.instructionPointer]? = some ⟨.JG, [l]⟩ →
      s.cmpResult > 0 →
      executeStep subs s = .ok { s with call_stack := ⟨body, 0⟩ :: rest })
    ∧ (frame.instructions[frame.instructionPointer]? = some ⟨.JLE, [l]⟩ →
      s.cmpResult ≤ 0 →
      executeStep subs s = .ok { s with call_stack := ⟨body, 0⟩ :: rest })
    ∧ (frame.instructions[frame.instructionPointer]? = some ⟨.JL, [l]⟩ →
      s.cmpResult < 0 →
      executeStep subs s = .ok { s with call_stack := ⟨body, 0⟩ :: rest })
    ∧ (frame.instructions[frame.instructionPointer]? = some ⟨.JMP, [l]⟩ →
      body = [] →
      (executeStep subs s).bind (executeStep subs) =
        .ok { s with call_stack := rest }) := by
  refine ⟨?_, ?_, ?_, ?_, ?_, ?_, ?_, ?_⟩
  · intro hinstr
    simp [executeStep, hstack, hinstr, executeInstruction, findSubroutine, hsub,
      replaceTopFrame]
  · intro hinstr hc
    simp [executeStep, hstack, hinstr, executeInstruction, condJump,
      findSubroutine, hsub, replaceTopFrame, hc]
  · intro hinstr hc
    simp [executeStep, hstack, hinstr, executeInstruction, condJump,
      findSubroutine, hsub, replaceTopFrame, hc]
  · intro hinstr hc
    simp [executeStep, hstack, hinstr, executeInstruction, condJump,
      findSubroutine, hsub, replaceTopFrame, hc]
  · intro hinstr hc
    simp [executeStep, hstack, hinstr, executeInstruction, condJump,
      findSubroutine, hsub, replaceTopFrame, hc]
  · intro hinstr hc
    simp [executeStep, hstack, hinstr, executeInstruction, condJump,
      findSubroutine, hsub, replaceTopFrame, hc]
  · intro hinstr hc
    simp [executeStep, hstack, hinstr, executeInstruction, condJump,
      findSubroutine, hsub, replaceTopFrame, hc]
  · intro hinstr hbody
    subst hbody
    simp [executeStep, hstack, hinstr, executeInstruction, findSubroutine, hsub,
      replaceTopFrame, Except.bind]

/-- A table holding one subroutine `f` with an empty body. -/
def subsEmpty : String → Option (List instruction) :=
  fun n => if n = "f" then some [] else none

/-- A table holding one subroutine `print` whose body is a single `ret`. -/
def subsRet : String → Option (List instruction) :=
  fun n => if n = "print" then some [⟨.RET, []⟩] else none

/-- Main program: a single `cmp a, 5`. -/
def cmpProg : List instruction := [⟨.CMP, ["a", "5"]⟩]

/-- Main program: a single `jne f`. -/
def jneProg : List instruction := [⟨.JNE, ["f"]⟩]

/-- Main program: a single `call print`. -/
def callProg : List instruction := [⟨.CALL, ["print"]⟩]

/-- Main program: a single `jmp f`. -/
def jmpProg : List instruction := [⟨.JMP, ["f"]⟩]

/-- Witness for C1: `cmp a, 5` from the initial state sets the flag to
0 − 5, and `jne f` with flag 0 falls through. -/
theorem cmp_flag_and_conditional_jumps_witness :
    executeStep subs0 (initState cmpProg) = .ok { initState cmpProg with
      cmpResult := 0 - 5
      call_stack := [⟨cmpProg, 1⟩] } ∧
    executeStep subsEmpty (initState jneProg) = .ok { initState jneProg with
      call_stack := [⟨jneProg, 1⟩] } := by
  constructor
  · exact (cmp_flag_and_conditional_jumps subs0 (initState cmpProg)
      ⟨cmpProg, 0⟩ [] rfl).1 "a" "5" 0 5 rfl rfl rfl
  · simpa using (cmp_flag_and_conditional_jumps subsEmpty (initState jneProg)
      ⟨jneProg, 0⟩ [] rfl).2.1 "f" [] rfl rfl

/-- Witness for C2: `call print` where `print` is a single `ret` resumes,
after two steps, at the instruction immediately after the `call`. -/
theorem call_pushes_continuation_and_ret_pops_lifo_witness :
    executeStep subsRet (initState callProg) = .ok { initState callProg with
      call_stack := [⟨[⟨.RET, []⟩], 0⟩, ⟨callProg, 1⟩] } ∧
    (executeStep subsRet (initState callProg)).bind (executeStep subsRet) =
      .ok { initState callProg with call_stack := [⟨callProg, 1⟩] } :=
  ⟨(call_pushes_continuation_and_ret_pops_lifo subsRet (initState callProg)
      ⟨callProg, 0⟩ [] rfl).1 "print" [⟨.RET, []⟩] rfl rfl,
   (call_pushes_continuation_and_ret_pops_lifo subsRet (initState callProg)
      ⟨callProg, 0⟩ [] rfl).2.2 "print" rfl rfl⟩

/-- Witness for C9: an empty main frame is popped and the run ends
normally with the default output. -/
theorem exhausted_frame_pops_and_run_ends_witness :
    executeStep subs0 (initState []) =
      .ok { initState [] with call_stack := [] } ∧
    executeLoop subs0 2 (initState []) =
      .ok (some { initState [] with call_stack := [] }) :=
  ⟨(exhausted_frame_pops_and_run_ends subs0 (initState []) ⟨[], 0⟩ rfl).1 [] rfl,
   (exhausted_frame_pops_and_run_ends subs0 (initState []) ⟨[], 0⟩ rfl).2 0 rfl⟩

/-- Witness for C10: `jmp f` with an empty body `f` replaces the main
frame, and one more step pops to the (empty) stack below it — the
instruction stream after the jump is discarded. -/
theorem taken_jump_replaces_top_frame_witness :
    executeStep subsEmpty (initState jmpProg) = .ok { initState jmpProg with
      call_stack := [⟨[], 0⟩] } ∧
    (executeStep subsEmpty (initState jmpProg)).bind (executeStep subsEmpty) =
      .ok { initState jmpProg with call_stack := [] } :=
  ⟨(taken_jump_replaces_top_frame subsEmpty (initState jmpProg) ⟨jmpProg, 0⟩
      [] "f" [] rfl rfl).1 rfl,
   (taken_jump_replaces_top_frame subsEmpty (initState jmpProg) ⟨jmpProg, 0⟩
      [] "f" [] rfl rfl).2.2.2.2.2.2.2 rfl rfl⟩

/-- C7 counterexample: an empty message operand.  The source evaluates
`a.at(0)` before any classification, so an empty operand aborts with
`std::out_of_range` — it is neither formatted as a register value (the
source's own `isRegister` accepts `""`) nor rejected with the
`InvalidMessageOperand` (`INVALID_MSG_ARGUMENT`) error the claim
names. -/
theorem empty_msg_operand_is_out_of_range :
    createMessage (fun _ => 0) [""] = .error (.msgArgOutOfRange "") ∧
    createMessage (fun _ => 0) [""] ≠ .ok "0" ∧
    createMessage (fun _ => 0) [""] ≠ .error (.invalidMsgArgument "") :=
  ⟨rfl, fun h => Except.noConfusion h,
   fun h => InterpError.noConfusion (Except.error.inj h)⟩

/-- C7 amended: when `end` runs the formatter, the output is the in-order
concatenation of the operands' resolved texts — an operand starting with
a quote character contributes itself minus its first and last characters
(for a properly quoted operand, exactly the text between the quotes), a
non-empty all-lowercase (register-name) operand contributes the decimal
string of that register's value, an empty operand aborts with a fatal
out-of-range error, and any other operand aborts with the fatal
`InvalidMessageOperand` (`INVALID_MSG_ARGUMENT`) error. -/
theorem message_formatting_amended (regs : String → Int) :
    (∀ a : String, a.data = [] →
      createMessageArg regs a = .error (.msgArgOutOfRange a))
    ∧ (∀ (a : String) (c : Char) (cs : List Char), a.data = c :: cs →
      c = '\'' →
      createMessageArg regs a = .ok (String.mk ((a.data.drop 1).dropLast)))
    ∧ (∀ (a : String) (c : Char) (cs : List Char), a.data = c :: cs →
      c ≠ '\'' → isRegister a = true →
      createMessageArg regs a = .ok (toString (regs a)))
    ∧ (∀ (a : String) (c : Char) (cs : List Char), a.data = c :: cs →
      c ≠ '\'' → isRegister a = false →
      createMessageArg regs a = .error (.invalidMsgArgument a))
    ∧ (∀ (pattern : List String) (f : String → String),
      (∀ a ∈ pattern, createMessageArg regs a = .ok (f a)) →
      createMessageLoop regs pattern =
        .ok (pattern.foldr (fun a acc => f a ++ acc) ""))
    ∧ (∀ pattern : List String, pattern ≠ [] →
      createMessage regs pattern = createMessageLoop regs pattern)
    ∧ (∀ (subs : String → Option (List instruction)) (s : ExecState)
      (frame : callFrame) (rest : List callFrame) (args : List String),
      s.call_stack = frame :: rest →
      frame.instructions[frame.instructionPointer]? = some ⟨.END, args⟩ →
      executeStep subs s = (createMessage s.regs s.messagePattern).map
        (fun out => { s with output := out, call_stack := [] })) := by
  refine ⟨?_, ?_, ?_, ?_, ?_, ?_, ?_⟩
  · intro a hdata
    simp [createMessageArg, hdata]
  · intro a c cs hdata hc
    simp [createMessageArg, hdata, hc]
  · intro a c cs hdata hc hreg
    simp [createMessageArg, hdata, hc, hreg]
  · intro a c cs hdata hc hreg
    simp [createMessageArg, hdata, hc, hreg]
  · intro pattern f
    induction pattern with
    | nil => intro _; rfl
    | cons a rest ih =>
      intro h
      have ha := h a (List.mem_cons_self a rest)
      have hrest := ih fun b hb => h b (List.mem_cons_of_mem a hb)
      simp [createMessageLoop, ha, hrest]
  · intro pattern hne
    simp [createMessage, hne]
  · intro subs s frame rest args hstack hinstr
    cases hcm : createMessage s.regs s.messagePattern <;>
      simp [executeStep, hstack, hinstr, executeInstruction, hcm, Except.map]

/-- Register contents for the spec's message example: a=2, b=10, c=1024. -/
def msgRegs : String → Int :=
  fun r => if r = "a" then 2 else if r = "b" then 10 else 1024

/-- The stored pattern of `msg a, '^', b, ' = ', c`. -/
def msgPat : List String := ["a", "'^'", "b", "' = '", "c"]

/-- The resolved text of each operand of `msgPat` under `msgRegs`. -/
def msgPieces : String → String := fun a =>
  if a = "a" then "2"
  else if a = "'^'" then "^"
  else if a = "b" then "10"
  else if a = "' = '" then " = "
  else "1024"

/-- Witness for the amended C7: the spec's example
`msg a, '^', b, ' = ', c` with a=2, b=10, c=1024 formats to
`"2^10 = 1024"`. -/
theorem message_formatting_amended_witness :
    createMessageLoop msgRegs msgPat = .ok "2^10 = 1024" :=
  (message_formatting_amended msgRegs).2.2.2.2.1 msgPat msgPieces
    (by intro a ha; fin_cases ha <;> rfl)

/-- No `end` instruction occurs in the sequence. -/
def noEndIn (l : List instruction) : Prop :=
  ∀ i ∈ l, i.type ≠ InstructionType.END

/-- No `msg` instruction occurs in the sequence. -/
def noMsgIn (l : List instruction) : Prop :=
  ∀ i ∈ l, i.type ≠ InstructionType.MSG

/-- Every subroutine body of the table satisfies `P`. -/
def subsAll (P : List instruction → Prop)
    (subs : String → Option (List instruction)) : Prop :=
  ∀ name body, subs name = some body → P body

/-- Every frame on the call stack has an instruction sequence
satisfying `P`. -/
def stackAll (P : List instruction → Prop) (s : ExecState) : Prop :=
  ∀ f ∈ s.call_stack, P f.instructions

lemma findSubroutine_ok {subs : String → Option (List instruction)}
    {l : String} {body : List instruction}
    (h : findSubroutine subs l = .ok body) : subs l = some body := by
  unfold findSubroutine at h
  cases hs : subs l with
  | none => rw [hs] at h; cases h
  | some b => rw [hs] at h; cases h; rfl

lemma stackAll_replace {P : List instruction → Prop} {t : ExecState}
    {body : List instruction}
    (hstack : stackAll P t) (hbody : P body) :
    ∀ f ∈ replaceTopFrame t.call_stack body, P f.instructions := by
  intro f hf
  simp only [replaceTopFrame, List.mem_cons] at hf
  rcases hf with rfl | hf
  · exact hbody
  · exact hstack f (List.tail_subset _ hf)

lemma stackAll_push {P : List instruction → Prop} {t : ExecState}
    {body : List instruction}
    (hstack : stackAll P t) (hbody : P body) :
    ∀ f ∈ (⟨body, 0⟩ : callFrame) :: t.call_stack, P f.instructions := by
  intro f hf
  rcases List.mem_cons.mp hf with rfl | hf
  · exact hbody
  · exact hstack f hf

/-- New frames only ever come from the subroutine table, so any property
of all executable instruction sequences is preserved by one dispatched
instruction. -/
lemma executeInstruction_stackAll {P : List instruction → Prop}
    {subs : String → Option (List instruction)} {instr : instruction}
    {t t' : ExecState}
    (hsubs : subsAll P subs) (hstack : stackAll P t)
    (h : executeInstruction subs instr t = .ok t') : stackAll P t' := by
  obtain ⟨ty, args⟩ := instr
  cases ty <;> simp only [executeInstruction, condJump] at h <;> repeat' split at h
  all_goals cases h
  all_goals try exact hstack
  all_goals try (intro f hf; exact hstack f (List.tail_subset _ hf))
  all_goals try (intro f hf; exact absurd hf (List.not_mem_nil f))
  all_goals
    rename_i heq
    intro f hf
    first
      | exact stackAll_replace hstack (hsubs _ _ (findSubroutine_ok heq)) f hf
      | exact stackAll_push hstack (hsubs _ _ (findSubroutine_ok heq)) f hf

/-- Every instruction other than `end` leaves the output untouched. -/
lemma executeInstruction_output {subs : String → Option (List instruction)}
    {instr : instruction} {t t' : ExecState}
    (hne : instr.type ≠ InstructionType.END)
    (h : executeInstruction subs instr t = .ok t') : t'.output = t.output := by
  obtain ⟨ty, args⟩ := instr
  cases ty
  case END => exact absurd rfl hne
  all_goals
    simp only [executeInstruction, condJump] at h
    repeat' split at h
  all_goals cases h <;> rfl

/-- Every instruction other than `msg` leaves the stored message pattern
untouched. -/
lemma executeInstruction_messagePattern
    {subs : String → Option (List instruction)}
    {instr : instruction} {t t' : ExecState}
    (hne : instr.type ≠ InstructionType.MSG)
    (h : executeInstruction subs instr t = .ok t') :
    t'.messagePattern = t.messagePattern := by
  obtain ⟨ty, args⟩ := instr
  cases ty
  case MSG => exact absurd rfl hne
  all_goals
    simp only [executeInstruction, condJump] at h
    repeat' split at h
  all_goals cases h <;> rfl

/-- `end` with an empty stored pattern writes the default `"-1"`. -/
lemma executeInstruction_end_output {subs : String → Option (List instruction)}
    {args : List String} {t t' : ExecState}
    (h : executeInstruction subs ⟨.END, args⟩ t = .ok t')
    (hpat : t.messagePattern = []) :
    t'.output = "-1" := by
  have hcm : createMessage t.regs t.messagePattern = .ok "-1" := by
    rw [hpat]; rfl
  simp only [executeInstruction, hcm] at h
  cases h
  rfl

/-- One loop iteration preserves the `noEndIn` invariant together with
the default output. -/
lemma executeStep_noEnd {subs : String → Option (List instruction)}
    {s s' : ExecState}
    (hsubs : subsAll noEndIn subs)
    (hinv : stackAll noEndIn s ∧ s.output = "-1")
    (h : executeStep subs s = .ok s') :
    stackAll noEndIn s' ∧ s'.output = "-1" := by
  obtain ⟨hstack, hout⟩ := hinv
  rcases hcs : s.call_stack with _ | ⟨frame, rest⟩ <;>
    simp only [executeStep, hcs] at h
  · cases h; exact ⟨hstack, hout⟩
  · rcases hget : frame.instructions[frame.instructionPointer]? with _ | instr <;>
      simp only [hget] at h
    · cases h
      refine ⟨?_, hout⟩
      intro f hf
      exact hstack f (by rw [hcs]; exact List.mem_cons_of_mem _ hf)
    · have hframe : noEndIn frame.instructions :=
        hstack frame (by rw [hcs]; exact List.mem_cons_self _ _)
      have hne : instr.type ≠ InstructionType.END :=
        hframe instr (List.getElem?_mem hget)
      have hstack1 : stackAll noEndIn
          { s with call_stack :=
            ⟨frame.instructions, frame.instructionPointer + 1⟩ :: rest } := by
        intro f hf
        rcases List.mem_cons.mp hf with rfl | hf
        · exact hframe
        · exact hstack f (by rw [hcs]; exact List.mem_cons_of_mem _ hf)
      refine ⟨executeInstruction_stackAll hsubs hstack1 h, ?_⟩
      rw [executeInstruction_output hne h]
      exact hout

/-- One loop iteration preserves the `noMsgIn` invariant together with
the empty pattern and the default output. -/
lemma executeStep_noMsg {subs : String → Option (List instruction)}
    {s s' : ExecState}
    (hsubs : subsAll noMsgIn subs)
    (hinv : stackAll noMsgIn s ∧ s.messagePattern = [] ∧ s.output = "-1")
    (h : executeStep subs s = .ok s') :
    stackAll noMsgIn s' ∧ s'.messagePattern = [] ∧ s'.output = "-1" := by
  obtain ⟨hstack, hpat, hout⟩ := hinv
  rcases hcs : s.call_stack with _ | ⟨frame, rest⟩ <;>
    simp only [executeStep, hcs] at h
  · cases h; exact ⟨hstack, hpat, hout⟩
  · rcases hget : frame.instructions[frame.instructionPointer]? with _ | instr <;>
      simp only [hget] at h
    · cases h
      refine ⟨?_, hpat, hout⟩
      intro f hf
      exact hstack f (by rw [hcs]; exact List.mem_cons_of_mem _ hf)
    · have hframe : noMsgIn frame.instructions :=
        hstack frame (by rw [hcs]; exact List.mem_cons_self _ _)
      have hne : instr.type ≠ InstructionType.MSG :=
        hframe instr (List.getElem?_mem hget)
      have hstack1 : stackAll noMsgIn
          { s with call_stack :=
            ⟨frame.instructions, frame.instructionPointer + 1⟩ :: rest } := by
        intro f hf
        rcases List.mem_cons.mp hf with rfl | hf
        · exact hframe
        · exact hstack f (by rw [hcs]; exact List.mem_cons_of_mem _ hf)
      refine ⟨executeInstruction_stackAll hsubs hstack1 h, ?_, ?_⟩
      · rw [executeInstruction_messagePattern hne h]
        exact hpat
      · by_cases hEnd : instr.type = InstructionType.END
        · obtain ⟨ty, iargs⟩ := instr
          cases hEnd
          exact executeInstruction_end_output h hpat
        · rw [executeInstruction_output hEnd h]
          exact hout

/-- Any property preserved by one step is carried from the start of the
dispatch loop to its normal end. -/
lemma executeLoop_preserves {subs : String → Option (List instruction)}
    (P : ExecState → Prop)
    (hstep : ∀ t t', P t → executeStep subs t = .ok t' → P t') :
    ∀ (fuel : Nat) (s s' : ExecState), P s →
      executeLoop subs fuel s = .ok (some s') → P s' := by
  intro fuel
  induction fuel with
  | zero => intro s s' hP h; simp [executeLoop] at h
  | succ n ih =>
    intro s s' hP h
    rcases hcs : s.call_stack with _ | ⟨f, r⟩ <;>
      simp only [executeLoop, hcs] at h
    · cases h; exact hP
    · rcases hst : executeStep subs s with e | t <;> rw [hst] at h
      · cases h
      · exact ih t s' (hstep s t hP hst) h

/-- C3: the output is the default `"-1"` unless an `end` executes while
the stored message pattern is non-empty: the initial output is `"-1"`; a
step whose current instruction is not an `end`-with-non-empty-pattern
keeps the output at `"-1"` (an `end` with empty pattern rewrites the
default); a program containing no `end` that runs to completion — its
instruction stream exhausted — ends with output `"-1"`; and a program
containing no `msg` (so `end` runs with no preceding `msg`) that runs to
completion also ends with output `"-1"`. -/
theorem output_default_unless_end_with_message :
    (∀ instrs : List instruction, (initState instrs).output = "-1")
    ∧ (∀ (subs : String → Option (List instruction)) (s s' : ExecState)
        (frame : callFrame) (rest : List callFrame) (instr : instruction),
        s.call_stack = frame :: rest →
        frame.instructions[frame.instructionPointer]? = some instr →
        (instr.type = InstructionType.END → s.messagePattern = []) →
        s.output = "-1" → executeStep subs s = .ok s' → s'.output = "-1")
    ∧ (∀ (subs : String → Option (List instruction))
        (instrs : List instruction) (fuel : Nat) (s' : ExecState),
        subsAll noEndIn subs → noEndIn instrs →
        executeLoop subs fuel (initState instrs) = .ok (some s') →
        s'.output = "-1")
    ∧ (∀ (subs : String → Option (List instruction))
        (instrs : List instruction) (fuel : Nat) (s' : ExecState),
        subsAll noMsgIn subs → noMsgIn instrs →
        executeLoop subs fuel (initState instrs) = .ok (some s') →
        s'.output = "-1") := by
  refine ⟨fun _ => rfl, ?_, ?_, ?_⟩
  · intro subs s s' frame rest instr hstack hget hEndPat hout h
    simp only [executeStep, hstack, hget] at h
    by_cases hEnd : instr.type = InstructionType.END
    · obtain ⟨ty, iargs⟩ := instr
      cases hEnd
      exact executeInstruction_end_output h (hEndPat rfl)
    · rw [executeInstruction_output hEnd h]
      exact hout
  · intro subs instrs fuel s' hsubs hmain h
    have hinit : stackAll noEndIn (initState instrs) ∧
        (initState instrs).output = "-1" := by
      refine ⟨?_, rfl⟩
      intro f hf
      simp only [initState, List.mem_singleton] at hf
      subst hf
      exact hmain
    exact (executeLoop_preserves
      (fun t => stackAll noEndIn t ∧ t.output = "-1")
      (fun t t' hP hstep => executeStep_noEnd hsubs hP hstep)
      fuel (initState instrs) s' hinit h).2
  · intro subs instrs fuel s' hsubs hmain h
    have hinit : stackAll noMsgIn (initState instrs) ∧
        (initState instrs).messagePattern = [] ∧
        (initState instrs).output = "-1" := by
      refine ⟨?_, rfl, rfl⟩
      intro f hf
      simp only [initState, List.mem_singleton] at hf
      subst hf
      exact hmain
    exact (executeLoop_preserves
      (fun t => stackAll noMsgIn t ∧ t.messagePattern = [] ∧ t.output = "-1")
      (fun t t' hP hstep => executeStep_noMsg hsubs hP hstep)
      fuel (initState instrs) s' hinit h).2.2

/-- Witness for C3: the `end`-less, `msg`-less program `inc a` runs to
completion (stream exhausted) with output `"-1"`. -/
theorem output_default_unless_end_with_message_witness :
    noEndIn demoProg ∧ noMsgIn demoProg ∧ demoFinal.output = "-1" := by
  refine ⟨by intro i hi; fin_cases hi; decide,
    by intro i hi; fin_cases hi; decide, ?_⟩
  exact output_default_unless_end_with_message.2.2.1 subs0 demoProg 4 demoFinal
    (fun _ _ hx => Option.noConfusion hx)
    (by intro i hi; fin_cases hi; decide) rfl

end AsmInterp
